import Mathlib

/-!
Verification development for the hybrid retrieval engine of the
`openspec/unity-kb` package (`hybrid_search.py`, `qdrant_config.py`).

Modelling conventions:
* Python floats are modelled as exact rationals (`ℚ`); the claims under
  study are about the shape of arithmetic expressions, not rounding.
* Text is modelled over Unicode scalar values with ASCII-faithful case
  mapping and ASCII-faithful `\w`/`\s` character classes, matching the
  token shapes the tokenizer is designed for.
* The external Qdrant client is modelled as an abstract record of
  response functions; the engine's dispatch additionally records the
  list of external calls it performs.
* Wall-clock fields (`search_time_ms`) are not modelled.
-/

namespace UnityKB

/-! ## MD5 (`hashlib.md5`), as used by `BM25Tokenizer.to_sparse_vector`
The tokenizer hashes each token with `int(hashlib.md5(tok).hexdigest()[:8], 16)`;
MD5 itself is embedded here (RFC 1321), operating on byte lists. -/

def w32 (n : Nat) : Nat := n % 4294967296

def not32 (x : Nat) : Nat := 4294967295 - w32 x

def rotl32 (x s : Nat) : Nat := w32 ((w32 x <<< s) ||| (w32 x >>> (32 - s)))

def md5F (b c d : Nat) : Nat := (b &&& c) ||| (not32 b &&& d)

def md5G (b c d : Nat) : Nat := (d &&& b) ||| (not32 d &&& c)

def md5H (b c d : Nat) : Nat := b ^^^ c ^^^ d

def md5I (b c d : Nat) : Nat := c ^^^ (b ||| not32 d)

def md5K : List Nat :=
  [0xd76aa478, 0xe8c7b756, 0x242070db, 0xc1bdceee,
   0xf57c0faf, 0x4787c62a, 0xa8304613, 0xfd469501,
   0x698098d8, 0x8b44f7af, 0xffff5bb1, 0x895cd7be,
   0x6b901122, 0xfd987193, 0xa679438e, 0x49b40821,
   0xf61e2562, 0xc040b340, 0x265e5a51, 0xe9b6c7aa,
   0xd62f105d, 0x02441453, 0xd8a1e681, 0xe7d3fbc8,
   0x21e1cde6, 0xc33707d6, 0xf4d50d87, 0x455a14ed,
   0xa9e3e905, 0xfcefa3f8, 0x676f02d9, 0x8d2a4c8a,
   0xfffa3942, 0x8771f681, 0x6d9d6122, 0xfde5380c,
   0xa4beea44, 0x4bdecfa9, 0xf6bb4b60, 0xbebfbc70,
   0x289b7ec6, 0xeaa127fa, 0xd4ef3085, 0x04881d05,
   0xd9d4d039, 0xe6db99e5, 0x1fa27cf8, 0xc4ac5665,
   0xf4292244, 0x432aff97, 0xab9423a7, 0xfc93a039,
   0x655b59c3, 0x8f0ccc92, 0xffeff47d, 0x85845dd1,
   0x6fa87e4f, 0xfe2ce6e0, 0xa3014314, 0x4e0811a1,
   0xf7537e82, 0xbd3af235, 0x2ad7d2bb, 0xeb86d391]

def md5S : List Nat :=
  [7, 12, 17, 22, 7, 12, 17, 22, 7, 12, 17, 22, 7, 12, 17, 22,
   5, 9, 14, 20, 5, 9, 14, 20, 5, 9, 14, 20, 5, 9, 14, 20,
   4, 11, 16, 23, 4, 11, 16, 23, 4, 11, 16, 23, 4, 11, 16, 23,
   6, 10, 15, 21, 6, 10, 15, 21, 6, 10, 15, 21, 6, 10, 15, 21]

/-- Pad a byte message per RFC 1321: append `0x80`, zeros to 56 mod 64,
then the bit length as 8 little-endian bytes. -/
def padMsg (msg : List Nat) : List Nat :=
  let len := msg.length
  let z := (119 - len % 64) % 64
  msg ++ [0x80] ++ List.replicate z 0 ++
    ((List.range 8).map fun i => ((8 * len) >>> (8 * i)) % 256)

def chunks64 (l : List Nat) : List (List Nat) :=
  if h : l = [] then [] else l.take 64 :: chunks64 (l.drop 64)
termination_by l.length
decreasing_by
  have hp : 0 < l.length := List.length_pos.mpr h
  simp [List.length_drop]
  omega

/-- Decode a 64-byte chunk into 16 little-endian 32-bit words. -/
def toWords (chunk : List Nat) : List Nat :=
  (List.range 16).map fun j =>
    chunk.getD (4 * j) 0 + chunk.getD (4 * j + 1) 0 * 256 +
      chunk.getD (4 * j + 2) 0 * 65536 + chunk.getD (4 * j + 3) 0 * 16777216

def md5Round (m : List Nat) (st : Nat × Nat × Nat × Nat) (i : Nat) :
    Nat × Nat × Nat × Nat :=
  let (a, b, c, d) := st
  let fg : Nat × Nat :=
    if i < 16 then (md5F b c d, i)
    else if i < 32 then (md5G b c d, (5 * i + 1) % 16)
    else if i < 48 then (md5H b c d, (3 * i + 5) % 16)
    else (md5I b c d, (7 * i) % 16)
  let t := w32 (fg.1 + a + md5K.getD i 0 + m.getD fg.2 0)
  (d, w32 (b + rotl32 t (md5S.getD i 0)), b, c)

def processChunk (st : Nat × Nat × Nat × Nat) (chunk : List Nat) :
    Nat × Nat × Nat × Nat :=
  let m := toWords chunk
  let r := (List.range 64).foldl (md5Round m) st
  (w32 (st.1 + r.1), w32 (st.2.1 + r.2.1), w32 (st.2.2.1 + r.2.2.1),
   w32 (st.2.2.2 + r.2.2.2))

/-- The four MD5 state words after digesting a byte message. -/
def md5State (msg : List Nat) : Nat × Nat × Nat × Nat :=
  (chunks64 (padMsg msg)).foldl processChunk
    (0x67452301, 0xefcdab89, 0x98badcfe, 0x10325476)

/-- Byte-swap a 32-bit word. The first 8 hex digits of an MD5 hexdigest are
the first 4 digest bytes, i.e. the first state word printed little-endian,
so `int(hexdigest[:8], 16)` is the byte-swapped first state word. -/
def bswap32 (x : Nat) : Nat :=
  (x % 256) * 16777216 + (x / 256 % 256) * 65536 +
    (x / 65536 % 256) * 256 + x / 16777216 % 256

/-- Byte view of a string: one code point per entry. On the ASCII texts this
tokenizer targets this coincides with Python `str.encode()`. -/
def strBytes (s : String) : List Nat := s.data.map Char.toNat

/-- `int(hashlib.md5(token.encode()).hexdigest()[:8], 16)` from
`BM25Tokenizer.to_sparse_vector`. -/
def md5hash32 (token : String) : Nat := bswap32 (md5State (strBytes token)).1

/-! ## `BM25Tokenizer` (`hybrid_search.py` lines 56-140)
The engine always constructs `BM25Tokenizer()` with its default
parameters, so `k1 = 1.5` is fixed here. Character classes follow the
ASCII reading of the regexes `[A-Z]`, `\w`, `\s`. -/

def k1 : ℚ := 3 / 2

/-- Python `str.lower()` on one character (ASCII range). -/
def pyLowerChar (c : Char) : Char :=
  if 65 ≤ c.toNat ∧ c.toNat ≤ 90 then Char.ofNat (c.toNat + 32) else c

/-- Python `str.upper()` on one character (ASCII range). -/
def pyUpperChar (c : Char) : Char :=
  if 97 ≤ c.toNat ∧ c.toNat ≤ 122 then Char.ofNat (c.toNat - 32) else c

def pyLower (s : String) : String := ⟨s.data.map pyLowerChar⟩

def pyUpper (s : String) : String := ⟨s.data.map pyUpperChar⟩

/-- The class `[A-Z]` of `re.compile(r'(?<!^)(?=[A-Z])')`. -/
def isUpperAZ (c : Char) : Bool := decide (65 ≤ c.toNat ∧ c.toNat ≤ 90)

/-- The class `\w` (ASCII): letters, digits, underscore. -/
def isWordChar (c : Char) : Bool :=
  decide ((97 ≤ c.toNat ∧ c.toNat ≤ 122) ∨ (65 ≤ c.toNat ∧ c.toNat ≤ 90) ∨
    (48 ≤ c.toNat ∧ c.toNat ≤ 57) ∨ c = '_')

/-- The class `\s` (ASCII): space, tab, newline, CR, VT, FF. -/
def isSpaceChar (c : Char) : Bool :=
  decide (c.toNat = 32 ∨ c.toNat = 9 ∨ c.toNat = 10 ∨ c.toNat = 13 ∨
    c.toNat = 11 ∨ c.toNat = 12)

/-- `self.camel_case_pattern.sub(' ', text)` with pattern
`(?<!^)(?=[A-Z])`: insert a space before every uppercase letter that is
not at position 0. -/
def camelSubTail : List Char → List Char
  | [] => []
  | c :: rest =>
    (if isUpperAZ c then [' ', c] else [c]) ++ camelSubTail rest

def camelSub : List Char → List Char
  | [] => []
  | c :: rest => c :: camelSubTail rest

/-- Separator class of `re.split(r'[\s_]+', text)`. -/
def isSepChar (c : Char) : Bool := isSpaceChar c || c = '_'

/-- Chunks between separator characters. `re.split` on a run-pattern
yields no interior empty chunks; splitting at each separator character
yields extra empty chunks, but the two agree after the length-≥-2 filter
below, which drops every empty chunk either way. -/
def splitChars : List Char → List (List Char)
  | [] => [[]]
  | c :: rest =>
    if isSepChar c then [] :: splitChars rest
    else
      match splitChars rest with
      | [] => [[c]]
      | g :: gs => (c :: g) :: gs

/-- `self.stop_words` from `BM25Tokenizer.__init__`. -/
def stopWords : List String :=
  ["the", "a", "an", "and", "or", "but", "in", "on", "at", "to",
   "for", "of", "with", "by", "from", "as", "is", "was", "be",
   "this", "that", "it", "they", "we", "you", "i", "my", "your"]

/-- `self.boost_tokens` from `BM25Tokenizer.__init__`. -/
def boostTokens : List (String × ℚ) :=
  [("network", 2), ("rpc", 2), ("serverrpc", 5/2), ("clientrpc", 5/2),
   ("networkvariable", 2), ("networkobject", 2), ("networkbehaviour", 2),
   ("gamecreator", 2), ("instruction", 3/2), ("condition", 3/2),
   ("trigger", 3/2), ("character", 3/2), ("inventory", 3/2),
   ("spawn", 3/2), ("despawn", 3/2), ("owner", 3/2)]

/-- `self.boost_tokens.get(token, 1.0)`. -/
def boostOf (token : String) : ℚ := (boostTokens.lookup token).getD 1

/-- `BM25Tokenizer.tokenize`, step for step: lowercase, camel-case
substitution, strip `[^\w\s_]` to spaces, split on `[\s_]+`, keep tokens
of length ≥ 2 that are not stop words. -/
def tokenize (text : String) : List String :=
  let t1 := (pyLower text).data
  let t2 := camelSub t1
  let t3 := t2.map fun c => if isWordChar c || isSpaceChar c then c else ' '
  let raw := (splitChars t3).map fun cs => String.mk cs
  raw.filter fun t => decide (2 ≤ t.length) && !(stopWords.contains t)

/-- One step of the `tf[token] += 1` loop: bump the entry for `t`, or
append `(t, 1)` at the end, preserving first-occurrence order exactly as
a Python dict does. -/
def tfIncr : List (String × Nat) → String → List (String × Nat)
  | [], t => [(t, 1)]
  | (k, v) :: rest, t =>
    if k = t then (k, v + 1) :: rest else (k, v) :: tfIncr rest t

/-- The complete `tf` dictionary of `to_sparse_vector`, in insertion
order. -/
def tfFold (tokens : List String) : List (String × Nat) :=
  tokens.foldl tfIncr []

/-- `BM25Tokenizer.to_sparse_vector`: per distinct token, index is the
32-bit MD5 prefix hash and value is `(count * boost) / (count + k1)`. -/
def toSparseVector (text : String) : List Nat × List ℚ :=
  let tf := tfFold (tokenize text)
  (tf.map fun p => md5hash32 p.1,
   tf.map fun p => ((p.2 : ℚ) * boostOf p.1) / ((p.2 : ℚ) + k1))

/-! ## Filter model (`_build_filter`, `_build_condition`) -/

/-- Scalar payload/filter values occurring in this engine's filters. -/
inductive PyVal where
  | str (s : String)
  | bool (b : Bool)
  | int (n : Int)
deriving DecidableEq, Repr

/-- The `"match"` sub-dictionary of a condition dictionary: which of the
keys `"value"`, `"any"`, `"text"` are present. -/
structure MatchDict where
  value : Option PyVal
  anyOf : Option (List PyVal)
  text : Option String
deriving DecidableEq, Repr

/-- A single condition dictionary, as consumed by `_build_condition`:
`condition.get("key")` and `condition.get("match", {})`. -/
structure CondDict where
  key : Option String
  matchd : Option MatchDict
deriving DecidableEq, Repr

/-- Compiled match operator (`MatchValue` / `MatchAny` / `MatchText`). -/
inductive FieldMatch where
  | value (v : PyVal)
  | anyOf (vs : List PyVal)
  | text (t : String)
deriving DecidableEq, Repr

structure FieldCondition where
  key : Option String
  matchSpec : FieldMatch
deriving DecidableEq, Repr

/-- Compiled Qdrant `Filter` (the `None`-vs-list distinction of the
source is kept). -/
structure QFilter where
  must : Option (List FieldCondition)
  should : Option (List FieldCondition)
  mustNot : Option (List FieldCondition)
deriving DecidableEq, Repr

/-- One entry of the caller's `filter_dict`, in iteration order: the
keys `"must"`, `"should"`, `"must_not"` carry condition lists; any other
key is a direct key-value pair. -/
inductive FilterEntry where
  | mustL (cs : List CondDict)
  | shouldL (cs : List CondDict)
  | mustNotL (cs : List CondDict)
  | direct (key : String) (v : PyVal)
deriving DecidableEq, Repr

abbrev FilterDict := List FilterEntry

/-- `HybridSearchEngine._build_condition` (lines 427-439): keys
`"value"`, `"any"`, `"text"` are tried in order; any other match shape
falls through to `MatchValue(value=True)`. -/
def buildCondition (c : CondDict) : FieldCondition :=
  let m := c.matchd.getD ⟨none, none, none⟩
  match m.value with
  | some v => ⟨c.key, .value v⟩
  | none =>
    match m.anyOf with
    | some vs => ⟨c.key, .anyOf vs⟩
    | none =>
      match m.text with
      | some t => ⟨c.key, .text t⟩
      | none => ⟨c.key, .value (.bool true)⟩

/-- `HybridSearchEngine._build_filter` (lines 397-425). -/
def buildFilter (fd : FilterDict) : QFilter :=
  let acc := fd.foldl
    (fun (acc : List FieldCondition × List FieldCondition × List FieldCondition) e =>
      match e with
      | .mustL cs => (acc.1 ++ cs.map buildCondition, acc.2.1, acc.2.2)
      | .shouldL cs => (acc.1, acc.2.1 ++ cs.map buildCondition, acc.2.2)
      | .mustNotL cs => (acc.1, acc.2.1, acc.2.2 ++ cs.map buildCondition)
      | .direct k v => (acc.1 ++ [⟨some k, .value v⟩], acc.2.1, acc.2.2))
    ([], [], [])
  ⟨if acc.1.isEmpty then none else some acc.1,
   if acc.2.1.isEmpty then none else some acc.2.1,
   if acc.2.2.isEmpty then none else some acc.2.2⟩

/-! ## Client model and retrieval stages -/

structure SparseVec where
  indices : List Nat
  values : List ℚ
deriving DecidableEq, Repr

inductive PrefetchQuery where
  | dense (v : List ℚ)
  | sparse (sv : SparseVec)
deriving DecidableEq, Repr

/-- A `Prefetch` sub-query of the fused `query_points` call. -/
structure Prefetch where
  query : PrefetchQuery
  usingName : String
  limit : Nat
  filter : Option QFilter
deriving DecidableEq, Repr

/-- A named single-vector query of the fallback `client.search` call. -/
inductive NamedQueryVec where
  | dense (name : String) (v : List ℚ)
  | sparse (name : String) (sv : SparseVec)
deriving DecidableEq, Repr

abbrev Payload := List (String × PyVal)

/-- A scored point returned by `query_points` / `search`. -/
structure ScoredPoint where
  id : String
  score : ℚ
  payload : Option Payload
deriving DecidableEq, Repr

/-- A record returned by `scroll` (no score). -/
structure RecordModel where
  id : String
  payload : Option Payload
deriving DecidableEq, Repr

/-- The external Qdrant client, modelled at its interface: the fused
multi-query may fail (it is the one call the engine guards with
`try/except`); the fallback calls are modelled by their responses. -/
structure ClientModel where
  queryPoints : List Prefetch → Int → Bool → Except String (List ScoredPoint)
  searchNamed : NamedQueryVec → Option QFilter → Int → Bool → List ScoredPoint
  scroll : Option QFilter → Int → Bool → List RecordModel

/-- One external call performed by the engine, in order. -/
inductive ExtCall where
  | embed (q : String)
  | fusionQuery (pre : List Prefetch) (limit : Int)
  | namedSearch (nv : NamedQueryVec) (filter : Option QFilter) (limit : Int)
  | scroll (filter : Option QFilter) (limit : Int)
deriving DecidableEq, Repr

/-- The fields of `HybridSearchConfig` read by the engine. -/
structure HybridSearchConfig where
  densePrefetchLimit : Nat := 100
  sparsePrefetchLimit : Nat := 100
deriving DecidableEq, Repr

structure SearchResult where
  id : String
  score : ℚ
  payload : Payload
  vectorName : String := ""
deriving DecidableEq, Repr

/-- `SearchResult(id=str(point.id), score=point.score, payload=point.payload or {})`. -/
def toSearchResult (p : ScoredPoint) : SearchResult :=
  ⟨p.id, p.score, p.payload.getD [], ""⟩

/-- Python truthiness of an optional list argument (`if dense_vector:`). -/
def truthyVec (v : Option (List ℚ)) : Bool :=
  match v with
  | none => false
  | some l => !l.isEmpty

/-- `HybridSearchEngine._fallback_scroll_search` (lines 361-383): every
record gets the placeholder score `1.0`. -/
def fallbackScrollSearch (client : ClientModel) (filter : Option QFilter)
    (limit : Int) (wp : Bool) : List SearchResult :=
  (client.scroll filter limit wp).map fun r => ⟨r.id, 1, r.payload.getD [], ""⟩

/-- `HybridSearchEngine._fallback_single_search` (lines 319-359): dense
if truthy, else sparse if non-empty, else the empty list. -/
def fallbackSingleSearch (client : ClientModel) (dense : Option (List ℚ))
    (sIdx : List Nat) (sVal : List ℚ) (filter : Option QFilter) (limit : Int)
    (wp : Bool) : List SearchResult × List ExtCall :=
  if truthyVec dense then
    let nv := NamedQueryVec.dense "dense" (dense.getD [])
    ((client.searchNamed nv filter limit wp).map toSearchResult,
     [.namedSearch nv filter limit])
  else if !sIdx.isEmpty then
    let nv := NamedQueryVec.sparse "sparse" ⟨sIdx, sVal⟩
    ((client.searchNamed nv filter limit wp).map toSearchResult,
     [.namedSearch nv filter limit])
  else ([], [])

/-- `HybridSearchEngine._hybrid_search_with_fusion` (lines 245-317):
build the prefetch list, scroll when it is empty, otherwise issue the
RRF fusion query and fall back to a single-vector search on failure.
`dw`/`sw` are accepted and ignored exactly as in the source. -/
def hybridSearchWithFusion (client : ClientModel) (cfg : HybridSearchConfig)
    (dense : Option (List ℚ)) (sIdx : List Nat) (sVal : List ℚ) (dw sw : ℚ)
    (filter : Option QFilter) (limit : Int) (wp : Bool) :
    List SearchResult × List ExtCall :=
  let densePre : List Prefetch :=
    if truthyVec dense then
      [⟨.dense (dense.getD []), "dense", cfg.densePrefetchLimit, filter⟩]
    else []
  let pre := densePre ++
    (if !sIdx.isEmpty then
      [⟨.sparse ⟨sIdx, sVal⟩, "sparse", cfg.sparsePrefetchLimit, filter⟩]
     else [])
  if pre.isEmpty then
    (fallbackScrollSearch client filter limit wp, [.scroll filter limit])
  else
    match client.queryPoints pre limit wp with
    | .ok pts => (pts.map toSearchResult, [.fusionQuery pre limit])
    | .error _ =>
      let fb := fallbackSingleSearch client dense sIdx sVal filter limit wp
      (fb.1, .fusionQuery pre limit :: fb.2)

/-! ## Presets (`qdrant_config.SearchPresets`, `_get_preset_config`) -/

/-- A preset dictionary: which keys are present, per
`SearchPresets.*_search()`. -/
structure PresetConfig where
  dense_weight : Option ℚ := none
  sparse_weight : Option ℚ := none
  filter : Option FilterDict := none
  prefetch_limit : Option Int := none
  final_limit : Option Int := none
deriving Repr

/-- `SearchPresets.code_search()`. -/
def codeSearchPreset : PresetConfig :=
  { dense_weight := some (3/5), sparse_weight := some (2/5),
    filter := some [.direct "content_type" (.str "code")],
    prefetch_limit := some 50, final_limit := some 20 }

/-- `SearchPresets.semantic_search()`. -/
def semanticSearchPreset : PresetConfig :=
  { dense_weight := some (17/20), sparse_weight := some (3/20),
    prefetch_limit := some 100, final_limit := some 20 }

/-- `SearchPresets.keyword_search()`. -/
def keywordSearchPreset : PresetConfig :=
  { dense_weight := some (3/10), sparse_weight := some (7/10),
    prefetch_limit := some 100, final_limit := some 30 }

/-- `SearchPresets.network_code_search()`. -/
def networkCodeSearchPreset : PresetConfig :=
  { dense_weight := some (1/2), sparse_weight := some (1/2),
    filter := some [.mustL
      [⟨some "content_type", some ⟨some (.str "code"), none, none⟩⟩,
       ⟨some "is_network", some ⟨some (.bool true), none, none⟩⟩]],
    prefetch_limit := some 50, final_limit := some 20 }

/-- `SearchPresets.gamecreator_search()`. -/
def gamecreatorSearchPreset : PresetConfig :=
  { dense_weight := some (3/5), sparse_weight := some (2/5),
    filter := some [.shouldL
      [⟨some "assembly_category", some ⟨some (.str "gamecreator_core"), none, none⟩⟩,
       ⟨some "assembly_category", some ⟨some (.str "gamecreator_module"), none, none⟩⟩,
       ⟨some "keywords", some ⟨none,
          some [.str "gamecreator", .str "instruction", .str "condition"], none⟩⟩]],
    prefetch_limit := some 50, final_limit := some 20 }

/-- `SearchPresets.documentation_search()`. -/
def documentationSearchPreset : PresetConfig :=
  { dense_weight := some (3/4), sparse_weight := some (1/4),
    filter := some [.direct "content_type" (.str "doc")],
    prefetch_limit := some 50, final_limit := some 15 }

/-- `HybridSearchEngine._get_preset_config` (lines 385-395): unknown
names yield the empty dictionary. -/
def getPresetConfig (p : String) : PresetConfig :=
  if p = "code" then codeSearchPreset
  else if p = "semantic" then semanticSearchPreset
  else if p = "keyword" then keywordSearchPreset
  else if p = "network" then networkCodeSearchPreset
  else if p = "gamecreator" then gamecreatorSearchPreset
  else if p = "docs" then documentationSearchPreset
  else {}

/-- Python truthiness of the optional `filter_dict` argument. -/
def truthyFd (fd : Option FilterDict) : Bool :=
  match fd with
  | none => false
  | some l => !l.isEmpty

/-- Python truthiness of the optional `preset` argument. -/
def truthyStr (p : Option String) : Bool :=
  match p with
  | none => false
  | some s => !(s = "")

/-- The preset-application block of `HybridSearchEngine.search`
(lines 199-206): when a preset is given, preset values for the weights
and the final limit replace the caller's, and the preset filter is used
only when the caller's `filter_dict` is falsy. Returns the resolved
`(dense_weight, sparse_weight, filter_dict, limit)`. -/
def applyPreset (preset : Option String) (fd : Option FilterDict)
    (limit : Int) (dw sw : ℚ) : ℚ × ℚ × Option FilterDict × Int :=
  if truthyStr preset then
    let pc := getPresetConfig (preset.getD "")
    (pc.dense_weight.getD dw, pc.sparse_weight.getD sw,
     (match pc.filter with
      | some f => if truthyFd fd then fd else some f
      | none => fd),
     pc.final_limit.getD limit)
  else (dw, sw, fd, limit)

/-! ## The engine (`HybridSearchEngine.search`, lines 169-243) -/

/-- The engine's owned state: client, optional embedding function and
the default `HybridSearchConfig()`. -/
structure Engine where
  client : ClientModel
  embedFn : Option (String → List ℚ)
  config : HybridSearchConfig := {}

/-- The `config_used` dictionary of the response. -/
structure ConfigUsed where
  dense_weight : ℚ
  sparse_weight : ℚ
  preset : Option String
  limit : Int
deriving DecidableEq, Repr

/-- `HybridSearchResponse` (`search_time_ms` is wall-clock and not
modelled). -/
structure HybridSearchResponse where
  results : List SearchResult
  total_found : Nat
  query : String
  config_used : ConfigUsed
deriving DecidableEq, Repr

/-- `HybridSearchEngine.search`, paired with the ordered list of
external calls it performs. -/
def Engine.search (eng : Engine) (query : String)
    (denseVector : Option (List ℚ)) (preset : Option String)
    (filterDict : Option FilterDict) (limit : Int) (dw sw : ℚ)
    (wp : Bool) : HybridSearchResponse × List ExtCall :=
  let r := applyPreset preset filterDict limit dw sw
  let dw := r.1
  let sw := r.2.1
  let fd := r.2.2.1
  let lim := r.2.2.2
  let de : Option (List ℚ) × List ExtCall :=
    match denseVector, eng.embedFn with
    | none, some f => (some (f query), [.embed query])
    | dv, _ => (dv, [])
  let sv := toSparseVector query
  let qfilter := if truthyFd fd then some (buildFilter (fd.getD [])) else none
  let hy := hybridSearchWithFusion eng.client eng.config de.1 sv.1 sv.2
    dw sw qfilter lim wp
  (⟨hy.1, hy.1.length, query, ⟨dw, sw, preset, lim⟩⟩, de.2 ++ hy.2)

/-! ## Auxiliary definitions for the proofs -/

/-- Total count stored for key `t` across an association list (equals
the stored value when keys are distinct). -/
def valSum : List (String × Nat) → String → Nat
  | [], _ => 0
  | (k, v) :: rest, t => (if k = t then v else 0) + valSum rest t

/-- A client on which every call succeeds: the fused query returns one
point whose RRF score differs from every native score below. -/
def testClientOk : ClientModel where
  queryPoints := fun _ _ _ => .ok [⟨"fused1", 1/61, none⟩]
  searchNamed := fun nv _ _ _ =>
    match nv with
    | .dense _ _ => [⟨"d1", 9/10, none⟩]
    | .sparse _ _ => [⟨"s1", 5, none⟩]
  scroll := fun _ _ _ => [⟨"r1", none⟩, ⟨"r2", none⟩]

/-- A client whose fused multi-query always fails, while single-vector
search and scroll still answer. -/
def testClientFail : ClientModel where
  queryPoints := fun _ _ _ => .error "fusion unsupported"
  searchNamed := fun nv _ _ _ =>
    match nv with
    | .dense _ _ => [⟨"d1", 9/10, none⟩]
    | .sparse _ _ => [⟨"s1", 5, none⟩]
  scroll := fun _ _ _ => [⟨"r1", none⟩, ⟨"r2", none⟩]

/-! ## Helper lemmas -/

theorem toNat_ofNat_valid {n : Nat} (h : n < 55296) : (Char.ofNat n).toNat = n := by
  rw [Char.ofNat, dif_pos (Or.inl h)]
  rfl

theorem toNat_lt_valid (c : Char) : c.toNat < 1114112 := by
  rcases c.valid with h | h
  · exact Nat.lt_trans h (by decide)
  · exact h.2

/-- After `str.lower()` no character is in `[A-Z]`, so the camel-case
pattern of `tokenize` can never match. -/
theorem isUpperAZ_pyLowerChar (c : Char) : isUpperAZ (pyLowerChar c) = false := by
  unfold pyLowerChar
  split
  · next h =>
    have hlt : c.toNat + 32 < 55296 := by omega
    simp only [isUpperAZ, toNat_ofNat_valid hlt, decide_eq_false_iff_not]
    omega
  · next h =>
    simp only [isUpperAZ, decide_eq_false_iff_not]
    omega

theorem camelSubTail_of_no_upper (cs : List Char)
    (h : ∀ c ∈ cs, isUpperAZ c = false) : camelSubTail cs = cs := by
  induction cs with
  | nil => rfl
  | cons c rest ih =>
    have hc := h c (by simp)
    have hr := ih fun d hd => h d (by simp [hd])
    simp [camelSubTail, hc, hr]

theorem camelSub_of_no_upper (cs : List Char)
    (h : ∀ c ∈ cs, isUpperAZ c = false) : camelSub cs = cs := by
  cases cs with
  | nil => rfl
  | cons c rest =>
    simp only [camelSub, camelSubTail_of_no_upper rest
      fun d hd => h d (by simp [hd])]

/-- ASCII case round trip: lowering after uppering equals lowering. -/
theorem pyLowerChar_pyUpperChar (c : Char) :
    pyLowerChar (pyUpperChar c) = pyLowerChar c := by
  unfold pyUpperChar
  split
  · next h =>
    have hlt : c.toNat - 32 < 55296 := by
      have := toNat_lt_valid c
      omega
    unfold pyLowerChar
    rw [if_pos (by rw [toNat_ofNat_valid hlt]; omega),
        if_neg (by omega)]
    rw [toNat_ofNat_valid hlt]
    have : c.toNat - 32 + 32 = c.toNat := by omega
    rw [this, Char.ofNat_toNat]
  · rfl

/-! ## Claims -/

/-- C1: the spec demands that `tokenize` lowercases and splits compound
identifiers at case boundaries, so that `vectorize("NetworkBehaviour")`
contains the tokens `network` and `behaviour`. The code lowercases
BEFORE applying the case-boundary pattern `(?<!^)(?=[A-Z])`, so the
split can never fire (conjunct 4 proves the substitution step is dead
code on every input): `tokenize "NetworkBehaviour"` is the single
unsplit token, against the claim and the code's own `# Split camelCase`
comment. Conjunct 5 shows the intended result does arise once the case
boundary is replaced by an explicit separator. -/
theorem C1_camel_split_never_fires :
    tokenize "NetworkBehaviour" = ["networkbehaviour"] ∧
    "network" ∉ tokenize "NetworkBehaviour" ∧
    "behaviour" ∉ tokenize "NetworkBehaviour" ∧
    (∀ s : String, camelSub ((pyLower s).data) = (pyLower s).data) ∧
    tokenize "Network Behaviour" = ["network", "behaviour"] := by
  refine ⟨by decide, by decide, by decide, ?_, by decide⟩
  intro s
  apply camelSub_of_no_upper
  intro c hc
  simp only [pyLower, List.mem_map] at hc
  obtain ⟨d, _, rfl⟩ := hc
  exact isUpperAZ_pyLowerChar d

/-- C2 counterexample: calling `search` with preset `"code"` and the
explicit caller value `dense_weight = 9/10` resolves to the preset's
`dense_weight = 3/5`, not the caller's — the preset overrides the
explicit parameter, so the claimed caller-over-preset precedence is
false at this input. -/
theorem C2_counterexample :
    ((Engine.search ⟨testClientOk, none, {}⟩ "q" none (some "code") none 20
        (9/10) (3/10) true).1.config_used.dense_weight = 3/5) ∧
    (3/5 : ℚ) ≠ 9/10 := by
  refine ⟨rfl, by norm_num⟩

/-- C2 amended: preset-derived parameters override caller-supplied ones
for `dense_weight`, `sparse_weight` and `limit` (the reverse of the
claim): for preset `"code"`, whatever the caller passes for those three,
the resolved configuration is the preset's `(0.6, 0.4, limit 20)`. -/
theorem C2_preset_overrides_caller (client : ClientModel)
    (ef : Option (String → List ℚ)) (q : String) (dv : Option (List ℚ))
    (fd : Option FilterDict) (limit : Int) (dw sw : ℚ) (wp : Bool) :
    (Engine.search ⟨client, ef, {}⟩ q dv (some "code") fd limit dw sw
        wp).1.config_used =
      ⟨3/5, 2/5, some "code", 20⟩ := by
  rfl

/-- C4 counterexample: a filter leaf whose match specification has none
of the known kinds (`value` / `any` / `text`) is NOT a surfaced
configuration error: `_build_condition` silently converts it into
`MatchValue(value=True)`, indistinguishable from an explicitly supplied
exact-match-on-`True` leaf. -/
theorem C4_counterexample :
    buildCondition ⟨some "lang", some ⟨none, none, none⟩⟩ =
        ⟨some "lang", .value (.bool true)⟩ ∧
    buildCondition ⟨some "lang", some ⟨none, none, none⟩⟩ =
      buildCondition ⟨some "lang", some ⟨some (.bool true), none, none⟩⟩ := by
  exact ⟨rfl, rfl⟩

/-- C4 amended: for every filter leaf with an unknown match-kind (none
of the keys `value`, `any`, `text` present), building the condition
never fails; it silently yields an exact match on the value `True`. -/
theorem C4_unknown_match_silently_defaults (c : CondDict)
    (hv : (c.matchd.getD ⟨none, none, none⟩).value = none)
    (ha : (c.matchd.getD ⟨none, none, none⟩).anyOf = none)
    (ht : (c.matchd.getD ⟨none, none, none⟩).text = none) :
    buildCondition c = ⟨c.key, .value (.bool true)⟩ := by
  obtain ⟨key, md⟩ := c
  cases md with
  | none => rfl
  | some m =>
    obtain ⟨mv, ma, mt⟩ := m
    simp only [Option.getD_some] at hv ha ht
    subst hv
    subst ha
    subst ht
    rfl

theorem C4_witness :
    ((⟨some "k", some ⟨none, none, none⟩⟩ : CondDict).matchd.getD
        ⟨none, none, none⟩).value = none ∧
    buildCondition ⟨some "k", some ⟨none, none, none⟩⟩ =
      ⟨some "k", .value (.bool true)⟩ :=
  ⟨rfl, C4_unknown_match_silently_defaults ⟨some "k", some ⟨none, none, none⟩⟩
    rfl rfl rfl⟩

/-- C8 counterexample: a malformed query specification is NOT rejected
before external calls: an empty query with no filter and no preset and
a negative limit still reaches the index — the engine issues an
unfiltered `scroll` carrying the negative limit verbatim. -/
theorem C8_counterexample :
    (Engine.search ⟨testClientOk, none, {}⟩ "" none none none (-5)
        (7/10) (3/10) true).2 = [.scroll none (-5)] ∧
    (Engine.search ⟨testClientOk, none, {}⟩ "" none none none (-5)
        (7/10) (3/10) true).2 ≠ [] := by
  have h1 : (Engine.search ⟨testClientOk, none, {}⟩ "" none none none (-5)
      (7/10) (3/10) true).2 = [.scroll none (-5)] := rfl
  exact ⟨h1, by rw [h1]; simp⟩

/-- C8 amended: `search` performs no client-side validation at all: for
every limit (negative ones included), an empty query with no filter, no
preset and no embedding function results in exactly one external call,
an unfiltered `scroll` with the caller's limit passed through unchanged,
and the call is answered rather than rejected. -/
theorem C8_no_validation (client : ClientModel) (limit : Int) (dw sw : ℚ)
    (wp : Bool) :
    (Engine.search ⟨client, none, {}⟩ "" none none none limit dw sw
        wp).2 = [.scroll none limit] ∧
    (Engine.search ⟨client, none, {}⟩ "" none none none limit dw sw
        wp).1.results =
      fallbackScrollSearch client none limit wp := by
  exact ⟨rfl, rfl⟩

/-- C3 counterexample: with the dense vector absent and a non-empty
sparse vector, and a client whose fused query succeeds, the engine does
NOT return the native sparse ranking: it issues the RRF fusion query
over the single sparse prefetch (conjunct 2) and returns the fusion
scores (here `1/61`), which differ from the native sparse search output
(conjunct 3) — so a fusion step IS applied to the single list and the
native scores are not preserved. -/
theorem C3_counterexample :
    (hybridSearchWithFusion testClientOk {} none [42] [1] (7/10) (3/10)
        none 10 true).1 = [⟨"fused1", 1/61, [], ""⟩] ∧
    (hybridSearchWithFusion testClientOk {} none [42] [1] (7/10) (3/10)
        none 10 true).2 =
      [.fusionQuery [⟨.sparse ⟨[42], [1]⟩, "sparse", 100, none⟩] 10] ∧
    (hybridSearchWithFusion testClientOk {} none [42] [1] (7/10) (3/10)
        none 10 true).1 ≠
      (testClientOk.searchNamed (.sparse "sparse" ⟨[42], [1]⟩) none 10
          true).map toSearchResult := by
  have h1 : (hybridSearchWithFusion testClientOk {} none [42] [1] (7/10)
      (3/10) none 10 true).1 = [⟨"fused1", 1/61, [], ""⟩] := rfl
  have h2 : (testClientOk.searchNamed (.sparse "sparse" ⟨[42], [1]⟩) none
      10 true).map toSearchResult = [⟨"s1", 5, [], ""⟩] := rfl
  refine ⟨h1, rfl, ?_⟩
  rw [h1, h2]
  intro hc
  have := congrArg (fun l => List.map SearchResult.id l) hc
  simp at this

/-- C3 amended: when only the sparse modality is present the engine
still issues the native RRF fusion query over the single sparse
prefetch and returns that query's points (RRF scores); the native
sparse search with preserved scores runs only in the fallback branch,
after the fusion query has failed. -/
theorem C3_single_modality_still_fused (client : ClientModel)
    (cfg : HybridSearchConfig) (sIdx : List Nat) (sVal : List ℚ)
    (dw sw : ℚ) (f : Option QFilter) (limit : Int) (wp : Bool)
    (hs : sIdx.isEmpty = false) :
    (∀ pts, client.queryPoints
        [⟨.sparse ⟨sIdx, sVal⟩, "sparse", cfg.sparsePrefetchLimit, f⟩]
        limit wp = .ok pts →
      hybridSearchWithFusion client cfg none sIdx sVal dw sw f limit wp =
        (pts.map toSearchResult,
         [.fusionQuery
            [⟨.sparse ⟨sIdx, sVal⟩, "sparse", cfg.sparsePrefetchLimit, f⟩]
            limit])) ∧
    (∀ e, client.queryPoints
        [⟨.sparse ⟨sIdx, sVal⟩, "sparse", cfg.sparsePrefetchLimit, f⟩]
        limit wp = .error e →
      hybridSearchWithFusion client cfg none sIdx sVal dw sw f limit wp =
        ((client.searchNamed (.sparse "sparse" ⟨sIdx, sVal⟩) f limit
            wp).map toSearchResult,
         [.fusionQuery
            [⟨.sparse ⟨sIdx, sVal⟩, "sparse", cfg.sparsePrefetchLimit, f⟩]
            limit,
          .namedSearch (.sparse "sparse" ⟨sIdx, sVal⟩) f limit])) := by
  constructor
  · intro pts hok
    simp [hybridSearchWithFusion, truthyVec, hs, hok]
  · intro e herr
    simp [hybridSearchWithFusion, truthyVec, hs, herr,
      fallbackSingleSearch]

theorem C3_witness :
    ([42] : List Nat).isEmpty = false ∧
    hybridSearchWithFusion testClientOk {} none [42] [1] (7/10) (3/10)
        none 10 true =
      ([⟨"fused1", 1/61, [], ""⟩],
       [.fusionQuery [⟨.sparse ⟨[42], [1]⟩, "sparse", 100, none⟩] 10]) :=
  ⟨rfl,
   (C3_single_modality_still_fused testClientOk {} [42] [1] (7/10) (3/10)
      none 10 true rfl).1 [⟨"fused1", 1/61, none⟩] rfl⟩

/-- C5: with empty query text (so the tokenizer yields zero terms), no
dense vector and no embedding function, and a non-empty filter, the
sparse stage is skipped and `search` returns the filter-matching
records exactly as the index scrolls them (index-native order), each
with placeholder score 1, bounded by the requested limit, with the
single external call being the `scroll` — no error path exists. -/
theorem C5_empty_text_scroll_fallback (client : ClientModel)
    (fd : FilterDict) (limit : Int) (dw sw : ℚ)
    (hfd : fd.isEmpty = false)
    (hlim : (client.scroll (some (buildFilter fd)) limit true).length ≤
      limit.toNat) :
    (Engine.search ⟨client, none, {}⟩ "" none none (some fd) limit dw sw
        true).1.results =
      (client.scroll (some (buildFilter fd)) limit true).map
        (fun r => ⟨r.id, 1, r.payload.getD [], ""⟩) ∧
    (∀ r ∈ (Engine.search ⟨client, none, {}⟩ "" none none (some fd) limit
        dw sw true).1.results, r.score = 1) ∧
    (Engine.search ⟨client, none, {}⟩ "" none none (some fd) limit dw sw
        true).1.results.length ≤ limit.toNat ∧
    (Engine.search ⟨client, none, {}⟩ "" none none (some fd) limit dw sw
        true).2 = [.scroll (some (buildFilter fd)) limit] := by
  cases fd with
  | nil => simp at hfd
  | cons e es =>
    have h1 : (Engine.search ⟨client, none, {}⟩ "" none none
        (some (e :: es)) limit dw sw true).1.results =
        (client.scroll (some (buildFilter (e :: es))) limit true).map
          (fun r => ⟨r.id, 1, r.payload.getD [], ""⟩) := rfl
    refine ⟨h1, ?_, ?_, rfl⟩
    · intro r hr
      rw [h1] at hr
      simp only [List.mem_map] at hr
      obtain ⟨p, _, rfl⟩ := hr
      rfl
    · rw [h1, List.length_map]
      exact hlim

theorem C5_witness :
    ([FilterEntry.direct "content_type" (.str "code")] :
        FilterDict).isEmpty = false ∧
    (testClientOk.scroll
        (some (buildFilter [.direct "content_type" (.str "code")])) 20
        true).length ≤ (20 : Int).toNat ∧
    (Engine.search ⟨testClientOk, none, {}⟩ "" none none
        (some [.direct "content_type" (.str "code")]) 20 (7/10) (3/10)
        true).1.results =
      (testClientOk.scroll
          (some (buildFilter [.direct "content_type" (.str "code")])) 20
          true).map (fun r => ⟨r.id, 1, r.payload.getD [], ""⟩) :=
  ⟨rfl, by decide,
   (C5_empty_text_scroll_fallback testClientOk
      [.direct "content_type" (.str "code")] 20 (7/10) (3/10) rfl
      (by decide)).1⟩

/-- C7: when the fused multi-query fails on every attempt, the stage
degrades without propagating the error: dense-only search when a dense
vector is present, otherwise sparse-only search when the sparse vector
is non-empty, otherwise (no modality at all — in which case the fusion
query is never even issued) the metadata-only scroll listing. -/
theorem C7_three_tier_degradation (client : ClientModel)
    (cfg : HybridSearchConfig) (dense : Option (List ℚ)) (sIdx : List Nat)
    (sVal : List ℚ) (dw sw : ℚ) (f : Option QFilter) (limit : Int)
    (wp : Bool)
    (hfail : ∀ pre l w, ∃ e, client.queryPoints pre l w = .error e) :
    (hybridSearchWithFusion client cfg dense sIdx sVal dw sw f limit
        wp).1 =
      (if truthyVec dense then
        (client.searchNamed (.dense "dense" (dense.getD [])) f limit
            wp).map toSearchResult
       else if !sIdx.isEmpty then
        (client.searchNamed (.sparse "sparse" ⟨sIdx, sVal⟩) f limit
            wp).map toSearchResult
       else fallbackScrollSearch client f limit wp) := by
  cases htd : truthyVec dense with
  | true =>
    cases sIdx with
    | nil =>
      obtain ⟨e, he⟩ := hfail
        [⟨.dense (dense.getD []), "dense", cfg.densePrefetchLimit, f⟩]
        limit wp
      simp [hybridSearchWithFusion, htd, he, fallbackSingleSearch]
    | cons a as =>
      obtain ⟨e, he⟩ := hfail
        [⟨.dense (dense.getD []), "dense", cfg.densePrefetchLimit, f⟩,
         ⟨.sparse ⟨a :: as, sVal⟩, "sparse", cfg.sparsePrefetchLimit, f⟩]
        limit wp
      simp [hybridSearchWithFusion, htd, he, fallbackSingleSearch]
  | false =>
    cases sIdx with
    | nil =>
      simp [hybridSearchWithFusion, htd, fallbackScrollSearch]
    | cons a as =>
      obtain ⟨e, he⟩ := hfail
        [⟨.sparse ⟨a :: as, sVal⟩, "sparse", cfg.sparsePrefetchLimit, f⟩]
        limit wp
      simp [hybridSearchWithFusion, htd, he, fallbackSingleSearch]

theorem C7_witness :
    (∀ pre l w, ∃ e, testClientFail.queryPoints pre l w = .error e) ∧
    (hybridSearchWithFusion testClientFail {} (some [1]) [] [] (7/10)
        (3/10) none 10 true).1 = [⟨"d1", 9/10, [], ""⟩] :=
  ⟨fun _ _ _ => ⟨"fusion unsupported", rfl⟩,
   C7_three_tier_degradation testClientFail {} (some [1]) [] [] (7/10)
     (3/10) none 10 true (fun _ _ _ => ⟨"fusion unsupported", rfl⟩)⟩

/-- The final result list of the fusion stage never exceeds the limit,
provided every client response at that limit respects it. -/
theorem hybridSearchWithFusion_length_le (client : ClientModel)
    (cfg : HybridSearchConfig) (dense : Option (List ℚ)) (sIdx : List Nat)
    (sVal : List ℚ) (dw sw : ℚ) (f : Option QFilter) (limit : Int)
    (wp : Bool)
    (hq : ∀ pre pts, client.queryPoints pre limit wp = .ok pts →
      pts.length ≤ limit.toNat)
    (hn : ∀ nv f2, (client.searchNamed nv f2 limit wp).length ≤
      limit.toNat)
    (hsc : ∀ f2, (client.scroll f2 limit wp).length ≤ limit.toNat) :
    (hybridSearchWithFusion client cfg dense sIdx sVal dw sw f limit
        wp).1.length ≤ limit.toNat := by
  cases htd : truthyVec dense with
  | true =>
    cases sIdx with
    | nil =>
      cases hres : client.queryPoints
          [⟨.dense (dense.getD []), "dense", cfg.densePrefetchLimit, f⟩]
          limit wp with
      | ok pts =>
        simp [hybridSearchWithFusion, htd, hres]
        exact hq _ _ hres
      | error e =>
        simp [hybridSearchWithFusion, htd, hres, fallbackSingleSearch]
        exact hn _ _
    | cons a as =>
      cases hres : client.queryPoints
          [⟨.dense (dense.getD []), "dense", cfg.densePrefetchLimit, f⟩,
           ⟨.sparse ⟨a :: as, sVal⟩, "sparse", cfg.sparsePrefetchLimit,
             f⟩] limit wp with
      | ok pts =>
        simp [hybridSearchWithFusion, htd, hres]
        exact hq _ _ hres
      | error e =>
        simp [hybridSearchWithFusion, htd, hres, fallbackSingleSearch]
        exact hn _ _
  | false =>
    cases sIdx with
    | nil =>
      simp [hybridSearchWithFusion, htd, fallbackScrollSearch]
      exact hsc _
    | cons a as =>
      cases hres : client.queryPoints
          [⟨.sparse ⟨a :: as, sVal⟩, "sparse", cfg.sparsePrefetchLimit,
            f⟩] limit wp with
      | ok pts =>
        simp [hybridSearchWithFusion, htd, hres]
        exact hq _ _ hres
      | error e =>
        simp [hybridSearchWithFusion, htd, hres, fallbackSingleSearch]
        exact hn _ _

/-- C10: the response's `total_found` equals the length of its
`results` list by construction, and under a limit-respecting client it
never exceeds the effective (preset-resolved) limit recorded in
`config_used`. -/
theorem C10_total_found_eq_length (eng : Engine) (query : String)
    (dv : Option (List ℚ)) (preset : Option String)
    (fd : Option FilterDict) (limit : Int) (dw sw : ℚ) (wp : Bool)
    (hq : ∀ pre pts, eng.client.queryPoints pre
        (applyPreset preset fd limit dw sw).2.2.2 wp = .ok pts →
      pts.length ≤ (applyPreset preset fd limit dw sw).2.2.2.toNat)
    (hn : ∀ nv f2, (eng.client.searchNamed nv f2
        (applyPreset preset fd limit dw sw).2.2.2 wp).length ≤
      (applyPreset preset fd limit dw sw).2.2.2.toNat)
    (hsc : ∀ f2, (eng.client.scroll f2
        (applyPreset preset fd limit dw sw).2.2.2 wp).length ≤
      (applyPreset preset fd limit dw sw).2.2.2.toNat) :
    (Engine.search eng query dv preset fd limit dw sw wp).1.total_found =
      (Engine.search eng query dv preset fd limit dw sw
          wp).1.results.length ∧
    (Engine.search eng query dv preset fd limit dw sw wp).1.total_found ≤
      (Engine.search eng query dv preset fd limit dw sw
          wp).1.config_used.limit.toNat := by
  refine ⟨rfl, ?_⟩
  exact hybridSearchWithFusion_length_le eng.client eng.config _ _ _ _ _
    _ _ wp hq hn hsc

theorem C10_witness :
    (∀ pre pts, testClientOk.queryPoints pre
        (applyPreset (some "code") none 7 (7/10) (3/10)).2.2.2 true =
        .ok pts →
      pts.length ≤
        (applyPreset (some "code") none 7 (7/10) (3/10)).2.2.2.toNat) ∧
    (∀ nv f2, (testClientOk.searchNamed nv f2
        (applyPreset (some "code") none 7 (7/10) (3/10)).2.2.2
        true).length ≤
      (applyPreset (some "code") none 7 (7/10) (3/10)).2.2.2.toNat) ∧
    (∀ f2, (testClientOk.scroll f2
        (applyPreset (some "code") none 7 (7/10) (3/10)).2.2.2
        true).length ≤
      (applyPreset (some "code") none 7 (7/10) (3/10)).2.2.2.toNat) ∧
    (Engine.search ⟨testClientOk, none, {}⟩ "q" none (some "code") none 7
        (7/10) (3/10) true).1.total_found =
      (Engine.search ⟨testClientOk, none, {}⟩ "q" none (some "code") none
          7 (7/10) (3/10) true).1.results.length := by
  have hq : ∀ pre pts, testClientOk.queryPoints pre
      (applyPreset (some "code") none 7 (7/10) (3/10)).2.2.2 true =
      .ok pts →
      pts.length ≤
        (applyPreset (some "code") none 7 (7/10) (3/10)).2.2.2.toNat := by
    intro pre pts h
    simp only [testClientOk, Except.ok.injEq] at h
    rw [← h]
    decide
  have hn : ∀ nv f2, (testClientOk.searchNamed nv f2
      (applyPreset (some "code") none 7 (7/10) (3/10)).2.2.2
      true).length ≤
      (applyPreset (some "code") none 7 (7/10) (3/10)).2.2.2.toNat := by
    intro nv f2
    cases nv <;> exact Nat.le_of_ble_eq_true rfl
  have hsc : ∀ f2, (testClientOk.scroll f2
      (applyPreset (some "code") none 7 (7/10) (3/10)).2.2.2
      true).length ≤
      (applyPreset (some "code") none 7 (7/10) (3/10)).2.2.2.toNat := by
    intro f2
    exact Nat.le_of_ble_eq_true rfl
  exact ⟨hq, hn, hsc,
    (C10_total_found_eq_length ⟨testClientOk, none, {}⟩ "q" none
      (some "code") none 7 (7/10) (3/10) true hq hn hsc).1⟩

/-! ## Lemmas about the term-frequency dictionary -/

theorem bswap32_lt (x : Nat) : bswap32 x < 4294967296 := by
  unfold bswap32
  have h1 : x % 256 < 256 := Nat.mod_lt _ (by norm_num)
  have h2 : x / 256 % 256 < 256 := Nat.mod_lt _ (by norm_num)
  have h3 : x / 65536 % 256 < 256 := Nat.mod_lt _ (by norm_num)
  have h4 : x / 16777216 % 256 < 256 := Nat.mod_lt _ (by norm_num)
  omega

theorem tfIncr_fst (acc : List (String × Nat)) (t : String) :
    (tfIncr acc t).map Prod.fst =
      if t ∈ acc.map Prod.fst then acc.map Prod.fst
      else acc.map Prod.fst ++ [t] := by
  induction acc with
  | nil => simp [tfIncr]
  | cons p rest ih =>
    obtain ⟨k, v⟩ := p
    by_cases hk : k = t
    · subst hk
      simp [tfIncr]
    · have hne : ¬t = k := fun ht => hk ht.symm
      simp only [tfIncr, if_neg hk, List.map_cons, ih, List.mem_cons,
        hne, false_or]
      split <;> simp

theorem mem_tfIncr (acc : List (String × Nat)) (t : String)
    (p : String × Nat) (hp : p ∈ tfIncr acc t) :
    p.1 = t ∨ p.1 ∈ acc.map Prod.fst := by
  induction acc with
  | nil =>
    simp [tfIncr] at hp
    simp [hp]
  | cons q rest ih =>
    obtain ⟨k, v⟩ := q
    by_cases hk : k = t
    · subst hk
      rcases List.mem_cons.mp (by simpa [tfIncr] using hp) with rfl | hp2
      · exact Or.inl rfl
      · exact Or.inr (List.mem_cons_of_mem _
          (List.mem_map_of_mem Prod.fst hp2))
    · rcases List.mem_cons.mp (by simpa [tfIncr, hk] using hp)
        with rfl | hp2
      · exact Or.inr (List.mem_cons_self _ _)
      · rcases ih hp2 with h | h
        · exact Or.inl h
        · exact Or.inr (List.mem_cons_of_mem _ h)

theorem valSum_tfIncr (acc : List (String × Nat)) (t u : String) :
    valSum (tfIncr acc t) u =
      valSum acc u + (if t = u then 1 else 0) := by
  induction acc with
  | nil => by_cases ht : t = u <;> simp [tfIncr, valSum, ht]
  | cons q rest ih =>
    obtain ⟨k, v⟩ := q
    by_cases hk : k = t
    · subst hk
      by_cases hku : k = u <;> simp [tfIncr, valSum, hku] <;> omega
    · simp [tfIncr, hk, valSum, ih]
      omega

theorem valSum_eq_zero (l : List (String × Nat)) (t : String)
    (h : t ∉ l.map Prod.fst) : valSum l t = 0 := by
  induction l with
  | nil => rfl
  | cons p rest ih =>
    obtain ⟨k, v⟩ := p
    simp only [List.map_cons, List.mem_cons, not_or] at h
    have hne : ¬k = t := fun hk => h.1 hk.symm
    simp [valSum, hne, ih h.2]

theorem snd_eq_valSum (l : List (String × Nat)) (p : String × Nat)
    (hnd : (l.map Prod.fst).Nodup) (hp : p ∈ l) :
    p.2 = valSum l p.1 := by
  induction l with
  | nil => simp at hp
  | cons q rest ih =>
    obtain ⟨k, v⟩ := q
    simp only [List.map_cons, List.nodup_cons] at hnd
    rcases List.mem_cons.mp hp with rfl | hp2
    · simp [valSum, valSum_eq_zero rest _ hnd.1]
    · have hne : ¬k = p.1 := by
        intro hk
        apply hnd.1
        rw [hk]
        exact List.mem_map_of_mem Prod.fst hp2
      simp [valSum, if_neg hne, ih hnd.2 hp2]

theorem tfIncr_nodup (acc : List (String × Nat)) (t : String)
    (h : (acc.map Prod.fst).Nodup) :
    ((tfIncr acc t).map Prod.fst).Nodup := by
  rw [tfIncr_fst]
  split
  · exact h
  · next hmem => simp [List.nodup_append, h, hmem]

theorem tfFoldAux_mem (ts : List String) :
    ∀ (acc : List (String × Nat)) (p : String × Nat),
      p ∈ ts.foldl tfIncr acc → p.1 ∈ acc.map Prod.fst ∨ p.1 ∈ ts := by
  induction ts with
  | nil =>
    intro acc p hp
    exact Or.inl (List.mem_map_of_mem Prod.fst hp)
  | cons t rest ih =>
    intro acc p hp
    rcases ih (tfIncr acc t) p hp with h | h
    · by_cases hm : t ∈ acc.map Prod.fst
      · rw [tfIncr_fst, if_pos hm] at h
        exact Or.inl h
      · rw [tfIncr_fst, if_neg hm] at h
        rcases List.mem_append.mp h with h2 | h2
        · exact Or.inl h2
        · simp only [List.mem_singleton] at h2
          exact Or.inr (h2 ▸ List.mem_cons_self _ _)
    · exact Or.inr (List.mem_cons_of_mem _ h)

theorem tfFoldAux_nodup (ts : List String) :
    ∀ acc, (acc.map Prod.fst).Nodup →
      ((ts.foldl tfIncr acc).map Prod.fst).Nodup := by
  induction ts with
  | nil => intro acc h; exact h
  | cons t rest ih => intro acc h; exact ih _ (tfIncr_nodup acc t h)

theorem tfFoldAux_valSum (ts : List String) :
    ∀ acc u, valSum (ts.foldl tfIncr acc) u =
      valSum acc u + ts.count u := by
  induction ts with
  | nil => intro acc u; simp
  | cons t rest ih =>
    intro acc u
    rw [List.foldl_cons, ih, valSum_tfIncr]
    by_cases htu : t = u <;>
      simp [htu, List.count_cons] <;> omega

/-- Every entry of the `tf` dictionary built by `to_sparse_vector` is a
token of the text together with its exact frequency. -/
theorem tfFold_mem_count (ts : List String) (p : String × Nat)
    (hp : p ∈ tfFold ts) : p.1 ∈ ts ∧ p.2 = ts.count p.1 := by
  constructor
  · rcases tfFoldAux_mem ts [] p hp with h | h
    · simp at h
    · exact h
  · have h1 := snd_eq_valSum (tfFold ts) p
      (tfFoldAux_nodup ts [] (by simp)) hp
    rw [h1]
    unfold tfFold
    rw [tfFoldAux_valSum]
    simp [valSum]

/-! ## Lemmas about the boost dictionary -/

theorem lookup_eq_none_of_not_mem (l : List (String × ℚ)) (t : String)
    (h : t ∉ l.map Prod.fst) : l.lookup t = none := by
  induction l with
  | nil => rfl
  | cons p rest ih =>
    obtain ⟨k, v⟩ := p
    simp only [List.map_cons, List.mem_cons, not_or] at h
    have hne : (t == k) = false := beq_eq_false_iff_ne.mpr h.1
    simp [List.lookup, hne, ih h.2]

theorem lookup_mem (l : List (String × ℚ)) (t : String) (v : ℚ)
    (h : l.lookup t = some v) : (t, v) ∈ l := by
  induction l with
  | nil => simp [List.lookup] at h
  | cons p rest ih =>
    obtain ⟨k, w⟩ := p
    by_cases htk : t = k
    · subst htk
      simp [List.lookup] at h
      simp [h]
    · have hne : (t == k) = false := beq_eq_false_iff_ne.mpr htk
      simp only [List.lookup, hne] at h
      exact List.mem_cons_of_mem _ (ih h)

theorem lookup_isSome_of_mem (l : List (String × ℚ)) (t : String)
    (h : t ∈ l.map Prod.fst) : ∃ v, l.lookup t = some v := by
  induction l with
  | nil => simp at h
  | cons p rest ih =>
    obtain ⟨k, w⟩ := p
    by_cases htk : t = k
    · subst htk
      exact ⟨w, by simp [List.lookup]⟩
    · have hne : (t == k) = false := beq_eq_false_iff_ne.mpr htk
      simp only [List.map_cons, List.mem_cons] at h
      obtain ⟨v, hv⟩ := ih (h.resolve_left htk)
      exact ⟨v, by simp [List.lookup, hne, hv]⟩

/-- Every boost in the table exceeds 1. -/
theorem boostTokens_gt_one : ∀ p ∈ boostTokens, (1 : ℚ) < p.2 := by
  intro p hp
  fin_cases hp <;> norm_num

/-- C6: every entry of the sparse vector of a text is, for some token of
the text with frequency `f`: index = the 32-bit MD5-prefix hash of the
token (stable, below `2^32`), and weight = `(f * boost) / (f + k1)`
with `k1 = 3/2`, boost `1` for tokens outside the boost table and a
constant strictly greater than `1` for tokens in it. -/
theorem C6_sparse_entry_shape (text : String) (i : Nat)
    (h : i < (toSparseVector text).1.length) :
    ∃ tok, tok ∈ tokenize text ∧
      (toSparseVector text).1[i]? = some (md5hash32 tok) ∧
      md5hash32 tok < 4294967296 ∧
      (toSparseVector text).2[i]? =
        some ((((tokenize text).count tok : ℚ) * boostOf tok) /
          (((tokenize text).count tok : ℚ) + k1)) ∧
      (tok ∉ boostTokens.map Prod.fst → boostOf tok = 1) ∧
      (tok ∈ boostTokens.map Prod.fst → 1 < boostOf tok) := by
  have h1 : (toSparseVector text).1 =
      (tfFold (tokenize text)).map (fun p => md5hash32 p.1) := rfl
  have h2 : (toSparseVector text).2 =
      (tfFold (tokenize text)).map
        (fun p => ((p.2 : ℚ) * boostOf p.1) / ((p.2 : ℚ) + k1)) := rfl
  have hi : i < (tfFold (tokenize text)).length := by
    rw [h1, List.length_map] at h
    exact h
  obtain ⟨hmem, hcnt⟩ := tfFold_mem_count (tokenize text)
    ((tfFold (tokenize text)).get ⟨i, hi⟩)
    (List.get_mem (tfFold (tokenize text)) i hi)
  refine ⟨((tfFold (tokenize text)).get ⟨i, hi⟩).1, hmem, ?_,
    bswap32_lt _, ?_, ?_, ?_⟩
  · rw [h1, List.getElem?_map, List.getElem?_eq_getElem hi]
    simp [List.get_eq_getElem]
  · rw [h2, List.getElem?_map, List.getElem?_eq_getElem hi]
    simp only [List.get_eq_getElem, Option.map_some', Option.some.injEq]
      at hcnt ⊢
    rw [hcnt]
  · intro hnm
    unfold boostOf
    rw [lookup_eq_none_of_not_mem boostTokens _ hnm]
    rfl
  · intro hm
    obtain ⟨v, hv⟩ := lookup_isSome_of_mem boostTokens _ hm
    unfold boostOf
    rw [hv]
    exact boostTokens_gt_one _ (lookup_mem boostTokens _ v hv)

theorem C6_witness :
    0 < (toSparseVector "network").1.length ∧
    (∃ tok, tok ∈ tokenize "network" ∧
      (toSparseVector "network").1[0]? = some (md5hash32 tok) ∧
      md5hash32 tok < 4294967296 ∧
      (toSparseVector "network").2[0]? =
        some ((((tokenize "network").count tok : ℚ) * boostOf tok) /
          (((tokenize "network").count tok : ℚ) + k1)) ∧
      (tok ∉ boostTokens.map Prod.fst → boostOf tok = 1) ∧
      (tok ∈ boostTokens.map Prod.fst → 1 < boostOf tok)) :=
  ⟨by decide, C6_sparse_entry_shape "network" 0 (by decide)⟩

/-! ## Case invariance (C9) -/

theorem pyLower_pyUpper (s : String) : pyLower (pyUpper s) = pyLower s := by
  show String.mk ((s.data.map pyUpperChar).map pyLowerChar) =
    String.mk (s.data.map pyLowerChar)
  apply congrArg
  rw [List.map_map]
  exact List.map_congr_left fun c _ => pyLowerChar_pyUpperChar c

theorem tokenize_pyUpper (s : String) :
    tokenize (pyUpper s) = tokenize s := by
  unfold tokenize
  rw [pyLower_pyUpper]

/-- C9: `vectorize(s)` and `vectorize(s.upper())` yield identical term
indices (the tokenizer lowercases before anything else, and hashing
operates on the case-normalized tokens); here even the whole index
lists coincide, hence so do their sets. Stated over ASCII inputs, where
the embedded `upper`/`lower` coincide with Python's. -/
theorem C9_case_insensitive_indices (s : String)
    (hascii : ∀ c ∈ s.data, c.toNat < 128) :
    (toSparseVector (pyUpper s)).1 = (toSparseVector s).1 := by
  unfold toSparseVector
  rw [tokenize_pyUpper]

theorem C9_witness :
    (∀ c ∈ ("NetworkBehaviour" : String).data, c.toNat < 128) ∧
    (toSparseVector (pyUpper "NetworkBehaviour")).1 =
      (toSparseVector "NetworkBehaviour").1 :=
  ⟨by decide, C9_case_insensitive_indices "NetworkBehaviour" (by decide)⟩

end UnityKB
